import Mathlib

/-!
Verification of the Minecomic server core (`src/server.py`) against its
natural-language specification.

Python strings are modelled as `List Char`; Python `time.time()` values as `ℚ`;
JSON scalar values as the inductive `JVal`.  The external `jmcomic` capability
(metadata fetch and page download) and the `urllib.parse.quote` percent-encoder
are modelled as oracle parameters, since they are libraries outside this
repository.  Filesystem contents are modelled as explicit data passed to the
scanning functions, and the effectful endpoints are modelled as pure state
transformers over a `SrvState` record.
-/

namespace Minecomic

/-- Characters of a Python string. -/
abbrev Str := List Char

/-- Model of Python `str.lower()` (ASCII case folding, which is all the server's
comparisons rely on). -/
def lowerStr (s : Str) : Str := s.map Char.toLower

/-- Value of a run of decimal digits, as computed by Python `int(...)`. -/
def digitsVal (s : Str) : Nat := s.foldl (fun a c => a * 10 + (c.toNat - 48)) 0

/-- Model of Python `str.isdigit()`: non-empty and all digits. -/
def pyIsDigitStr (s : Str) : Bool := !s.isEmpty && s.all Char.isDigit

/-- Maximal runs of same-class (digit / non-digit) characters, leftmost first.
Each run is tagged with `true` when it is a digit run. -/
def charRuns : Str → List (Bool × Str)
  | [] => []
  | c :: rest =>
    match charRuns rest with
    | [] => [(c.isDigit, [c])]
    | (d, run) :: rs =>
      if c.isDigit = d then (d, c :: run) :: rs
      else (c.isDigit, [c]) :: (d, run) :: rs

/-- Interleaving step used to model `re.split(r'(\d+)', s)`: the regex split
returns the (possibly empty) non-digit segments interleaved with the captured
digit runs, always beginning and ending with a non-digit segment.  The `Bool`
argument is `false` when a non-digit segment is expected next. -/
def interleave : Bool → List (Bool × Str) → List Str
  | false, [] => [[]]
  | true, [] => []
  | false, (false, run) :: rest => run :: interleave true rest
  | false, (true, run) :: rest => [] :: run :: interleave false rest
  | true, (_, run) :: rest => run :: interleave false rest

/-- Model of `re.split(r'(\d+)', s)`. -/
def pySplit (s : Str) : List Str := interleave false (charRuns s)

/-- One element of a Python `natural_key` result: an `int` or a `str`. -/
inductive PyKey where
  | int (n : Nat)
  | str (s : Str)
  deriving DecidableEq

/-- Element conversion in the `natural_key` list comprehension:
`int(s) if s.isdigit() else s.lower()`. -/
def keyOfSeg (seg : Str) : PyKey :=
  if pyIsDigitStr seg then .int (digitsVal seg) else .str (lowerStr seg)

/-- `server.py:63-64`:
`natural_key(s) = [int(t) if t.isdigit() else t.lower() for t in re.split(r'(\d+)', s)]`. -/
def natural_key (s : Str) : List PyKey := (pySplit s).map keyOfSeg

/-- Lexicographic comparison of Python strings (by code point). -/
def lexCompare : Str → Str → Ordering
  | [], [] => .eq
  | [], _ :: _ => .lt
  | _ :: _, [] => .gt
  | a :: as, b :: bs =>
    match compare a b with
    | .eq => lexCompare as bs
    | o => o

/-- Python comparison of two `natural_key` lists (element-wise; shorter list is
smaller on a common front).  Comparing an `int` element against a `str` element
raises `TypeError` in Python, modelled as `none`. -/
def pyKeyListCompare : List PyKey → List PyKey → Option Ordering
  | [], [] => some .eq
  | [], _ :: _ => some .lt
  | _ :: _, [] => some .gt
  | .int m :: as, .int n :: bs =>
    match compare m n with
    | .eq => pyKeyListCompare as bs
    | o => some o
  | .str a :: as, .str b :: bs =>
    match lexCompare a b with
    | .eq => pyKeyListCompare as bs
    | o => some o
  | .int _ :: _, .str _ :: _ => none
  | .str _ :: _, .int _ :: _ => none

/-- The `a ≤ b` relation Python's stable sort effectively uses with
`key=natural_key`: not strictly greater. -/
def natLe (a b : Str) : Bool :=
  match pyKeyListCompare (natural_key a) (natural_key b) with
  | some .gt => false
  | _ => true

/-- Stable insertion used to model Python's (stable) `sorted`. -/
def insSorted (le : α → α → Bool) (x : α) : List α → List α
  | [] => [x]
  | y :: ys => if le x y then x :: y :: ys else y :: insSorted le x ys

/-- Model of Python `sorted(l, key=...)`: a stable sort.  For the total
preorders used here every stable sort produces the same output as Timsort. -/
def pySortBy (le : α → α → Bool) (l : List α) : List α := l.foldr (insSorted le) []

/-- One maximal run in the specification's description of natural order
(§4.1): a digit run taken by integer value, or a non-digit run. -/
inductive Run where
  | num (n : Nat)
  | txt (s : Str)
  deriving DecidableEq

/-- A character-run chunk viewed as a specification run. -/
def runOfChunk : Bool × Str → Run
  | (true, run) => .num (digitsVal run)
  | (false, run) => .txt run

/-- The specification's "sequence of maximal runs of digits and maximal runs of
non-digits" for a name (§4.1). -/
def specRuns (s : Str) : List Run := (charRuns s).map runOfChunk

/-- Modelled from the spec (§4.1): compare run-by-run, numeric runs by integer
value, non-numeric runs by case-insensitive lexicographic order, the shorter
run sequence first on a common prefix.  The spec is silent on comparing a digit
run against a non-digit run (which can only happen when exactly one of the two
names starts with a digit); there the code's behavior — digit run first — is
adopted. -/
def specRunCompare : List Run → List Run → Ordering
  | [], [] => .eq
  | [], _ :: _ => .lt
  | _ :: _, [] => .gt
  | .num m :: as, .num n :: bs =>
    match compare m n with
    | .eq => specRunCompare as bs
    | o => o
  | .txt a :: as, .txt b :: bs =>
    match lexCompare (lowerStr a) (lowerStr b) with
    | .eq => specRunCompare as bs
    | o => o
  | .num _ :: _, .txt _ :: _ => .lt
  | .txt _ :: _, .num _ :: _ => .gt

/-- Well-formedness of one chunk: non-empty, all characters of the tagged
class. -/
def chunkClassOk (d : Bool) (run : Str) : Bool :=
  !run.isEmpty && run.all (fun c => c.isDigit == d)

/-- Well-formedness of a chunk list: every chunk well-formed and adjacent
chunks of different classes (maximality). -/
def chunksOk : List (Bool × Str) → Bool
  | [] => true
  | (d, run) :: rest =>
    chunkClassOk d run &&
    (match rest with
     | [] => true
     | (d', _) :: _ => d != d') &&
    chunksOk rest

/-- Whether a chunk list may follow an already-emitted text segment: empty or
digit-run-headed. -/
def dHead : List (Bool × Str) → Bool
  | [] => true
  | (true, _) :: _ => true
  | (false, _) :: _ => false

theorem lowerStr_nil : lowerStr [] = [] := rfl

theorem charRuns_ok (s : Str) : chunksOk (charRuns s) = true := by
  induction s with
  | nil => rfl
  | cons c rest ih =>
    cases h : charRuns rest with
    | nil => cases hc : c.isDigit <;> simp [charRuns, h, chunksOk, chunkClassOk, hc]
    | cons p rs =>
      obtain ⟨d, run⟩ := p
      rw [h] at ih
      have ih' := ih
      simp only [chunksOk, Bool.and_eq_true, chunkClassOk] at ih'
      obtain ⟨⟨⟨hne, hall⟩, hadj⟩, hrest⟩ := ih'
      by_cases hd : c.isDigit = d
      · cases rs with
        | nil =>
          simp [charRuns, h, hd, chunksOk, chunkClassOk, List.all_cons, hall]
        | cons q rs' =>
          obtain ⟨d', run'⟩ := q
          simp_all [charRuns, h, chunksOk, chunkClassOk, List.all_cons]
      · have hadj' : (c.isDigit != d) = true := by
          cases hcd : c.isDigit <;> cases hdd : d <;> simp_all
        simp only [charRuns, h, if_neg hd, chunksOk, chunkClassOk, Bool.and_eq_true]
        exact ⟨⟨⟨by simp, by simp⟩, hadj'⟩, ⟨⟨⟨hne, hall⟩, hadj⟩, hrest⟩⟩

theorem chunkClassOk_isEmpty {d : Bool} {run : Str} (h : chunkClassOk d run = true) :
    run.isEmpty = false := by
  simp only [chunkClassOk, Bool.and_eq_true, Bool.not_eq_true'] at h
  exact h.1

theorem keyOfSeg_nil : keyOfSeg [] = .str [] := rfl

theorem keyOfSeg_digit {run : Str} (h : chunkClassOk true run = true) :
    keyOfSeg run = .int (digitsVal run) := by
  simp only [chunkClassOk, Bool.and_eq_true, Bool.not_eq_true'] at h
  obtain ⟨hne, hall⟩ := h
  have : pyIsDigitStr run = true := by
    simp only [pyIsDigitStr, Bool.and_eq_true, Bool.not_eq_true', hne, true_and]
    simp only [List.all_eq_true] at hall ⊢
    intro c hc
    simpa using hall c hc
  simp [keyOfSeg, this]

theorem keyOfSeg_text {run : Str} (h : chunkClassOk false run = true) :
    keyOfSeg run = .str (lowerStr run) := by
  simp only [chunkClassOk, Bool.and_eq_true, Bool.not_eq_true'] at h
  obtain ⟨hne, hall⟩ := h
  have : pyIsDigitStr run = false := by
    cases run with
    | nil => simp at hne
    | cons c cs =>
      simp only [List.all_eq_true] at hall
      have hc : c.isDigit = false := by simpa using hall c (by simp)
      simp [pyIsDigitStr, hc]
  simp [keyOfSeg, this]

theorem lowerStr_isEmpty (t : Str) : (lowerStr t).isEmpty = t.isEmpty := by
  cases t <;> rfl

theorem lexCompare_nil_lt {t : Str} (h : t.isEmpty = false) : lexCompare [] t = .lt := by
  cases t with
  | nil => simp at h
  | cons _ _ => rfl

theorem lexCompare_nil_gt {t : Str} (h : t.isEmpty = false) : lexCompare t [] = .gt := by
  cases t with
  | nil => simp at h
  | cons _ _ => rfl

theorem chunksOk_head {d : Bool} {run : Str} {rest : List (Bool × Str)}
    (h : chunksOk ((d, run) :: rest) = true) :
    chunkClassOk d run = true ∧ chunksOk rest = true := by
  simp only [chunksOk, Bool.and_eq_true] at h
  exact ⟨h.1.1, h.2⟩

theorem chunksOk_dHead {run : Str} {rest : List (Bool × Str)}
    (h : chunksOk ((false, run) :: rest) = true) : dHead rest = true := by
  cases rest with
  | nil => rfl
  | cons q rest' =>
    obtain ⟨d', run'⟩ := q
    simp only [chunksOk, Bool.and_eq_true] at h
    have := h.1.2
    cases hd' : d' with
    | true => rfl
    | false => rw [hd'] at this; simp at this

/-- Core equivalence between the Python comparison of padded `natural_key`
lists and the specification's run-by-run comparison, for well-formed chunk
lists.  The first conjunct is the text-expected (`interleave false`) state, the
second is the digit-expected (`interleave true`) state. -/
theorem interleave_compare :
    ∀ n cs1 cs2, cs1.length + cs2.length ≤ n → chunksOk cs1 = true → chunksOk cs2 = true →
    (pyKeyListCompare ((interleave false cs1).map keyOfSeg) ((interleave false cs2).map keyOfSeg)
      = some (specRunCompare (cs1.map runOfChunk) (cs2.map runOfChunk)))
    ∧ (dHead cs1 = true → dHead cs2 = true →
      pyKeyListCompare ((interleave true cs1).map keyOfSeg) ((interleave true cs2).map keyOfSeg)
      = some (specRunCompare (cs1.map runOfChunk) (cs2.map runOfChunk))) := by
  intro n
  induction n with
  | zero =>
    intro cs1 cs2 hlen h1 h2
    have e1 : cs1 = [] := by
      cases cs1 with
      | nil => rfl
      | cons _ _ => simp only [List.length_cons] at hlen; omega
    have e2 : cs2 = [] := by
      cases cs2 with
      | nil => rfl
      | cons _ _ => simp only [List.length_cons] at hlen; omega
    subst e1; subst e2
    exact ⟨by decide, fun _ _ => by decide⟩
  | succ n ih =>
    intro cs1 cs2 hlen h1 h2
    constructor
    · -- text-expected state
      rcases cs1 with _ | ⟨⟨(_ | _), run1⟩, r1⟩ <;>
        rcases cs2 with _ | ⟨⟨(_ | _), run2⟩, r2⟩
      · decide
      · -- nil vs (false, run2)
        have hc2 := (chunksOk_head h2).1
        have hk2 := keyOfSeg_text hc2
        have hne2 : (lowerStr run2).isEmpty = false := by
          rw [lowerStr_isEmpty]; exact chunkClassOk_isEmpty hc2
        simp [interleave, hk2, pyKeyListCompare, lowerStr_nil, keyOfSeg_nil, lexCompare_nil_lt hne2, specRunCompare]
      · -- nil vs (true, run2)
        have hc2 := (chunksOk_head h2).1
        have hk2 := keyOfSeg_digit hc2
        simp [interleave, hk2, pyKeyListCompare, lowerStr_nil, keyOfSeg_nil, lexCompare, specRunCompare]
      · -- (false, run1) vs nil
        have hc1 := (chunksOk_head h1).1
        have hk1 := keyOfSeg_text hc1
        have hne1 : (lowerStr run1).isEmpty = false := by
          rw [lowerStr_isEmpty]; exact chunkClassOk_isEmpty hc1
        simp [interleave, hk1, pyKeyListCompare, lowerStr_nil, keyOfSeg_nil, lexCompare_nil_gt hne1, specRunCompare]
      · -- (false, run1) vs (false, run2)
        have hc1 := (chunksOk_head h1).1
        have hc2 := (chunksOk_head h2).1
        have hk1 := keyOfSeg_text hc1
        have hk2 := keyOfSeg_text hc2
        have hrec := (ih r1 r2 (by simp at hlen ⊢; omega)
          (chunksOk_head h1).2 (chunksOk_head h2).2).2
          (chunksOk_dHead h1) (chunksOk_dHead h2)
        cases ho : lexCompare (lowerStr run1) (lowerStr run2) <;>
          simp [interleave, hk1, hk2, pyKeyListCompare, ho, specRunCompare, runOfChunk, hrec]
      · -- (false, run1) vs (true, run2)
        have hc1 := (chunksOk_head h1).1
        have hk1 := keyOfSeg_text hc1
        have hne1 : (lowerStr run1).isEmpty = false := by
          rw [lowerStr_isEmpty]; exact chunkClassOk_isEmpty hc1
        simp [interleave, hk1, pyKeyListCompare, lowerStr_nil, keyOfSeg_nil,
          lexCompare_nil_gt hne1, specRunCompare, runOfChunk]
      · -- (true, run1) vs nil
        have hc1 := (chunksOk_head h1).1
        have hk1 := keyOfSeg_digit hc1
        simp [interleave, hk1, pyKeyListCompare, lowerStr_nil, keyOfSeg_nil, lexCompare, specRunCompare]
      · -- (true, run1) vs (false, run2)
        have hc2 := (chunksOk_head h2).1
        have hk2 := keyOfSeg_text hc2
        have hne2 : (lowerStr run2).isEmpty = false := by
          rw [lowerStr_isEmpty]; exact chunkClassOk_isEmpty hc2
        simp [interleave, hk2, pyKeyListCompare, lowerStr_nil, keyOfSeg_nil,
          lexCompare_nil_lt hne2, specRunCompare, runOfChunk]
      · -- (true, run1) vs (true, run2)
        have hc1 := (chunksOk_head h1).1
        have hc2 := (chunksOk_head h2).1
        have hk1 := keyOfSeg_digit hc1
        have hk2 := keyOfSeg_digit hc2
        have hrec := (ih r1 r2 (by simp at hlen ⊢; omega)
          (chunksOk_head h1).2 (chunksOk_head h2).2).1
        cases ho : compare (digitsVal run1) (digitsVal run2) <;>
          simp [interleave, hk1, hk2, pyKeyListCompare, lexCompare, ho, specRunCompare,
            runOfChunk, hrec]
    · -- digit-expected state
      intro hd1 hd2
      rcases cs1 with _ | ⟨⟨(_ | _), run1⟩, r1⟩ <;>
        rcases cs2 with _ | ⟨⟨(_ | _), run2⟩, r2⟩
      · decide
      · simp [dHead] at hd2
      · -- nil vs (true, run2)
        simp [interleave, pyKeyListCompare, specRunCompare, runOfChunk]
      · simp [dHead] at hd1
      · simp [dHead] at hd1
      · simp [dHead] at hd1
      · -- (true, run1) vs nil
        simp [interleave, pyKeyListCompare, specRunCompare, runOfChunk]
      · simp [dHead] at hd2
      · -- (true, run1) vs (true, run2)
        have hc1 := (chunksOk_head h1).1
        have hc2 := (chunksOk_head h2).1
        have hk1 := keyOfSeg_digit hc1
        have hk2 := keyOfSeg_digit hc2
        have hrec := (ih r1 r2 (by simp at hlen ⊢; omega)
          (chunksOk_head h1).2 (chunksOk_head h2).2).1
        cases ho : compare (digitsVal run1) (digitsVal run2) <;>
          simp [interleave, hk1, hk2, pyKeyListCompare, ho, specRunCompare, runOfChunk, hrec]

/-- The comparison the code performs on two `natural_key` values agrees with
the specification's run-by-run comparison (and in particular never fails). -/
theorem natural_key_compare_eq_spec (a b : Str) :
    pyKeyListCompare (natural_key a) (natural_key b)
      = some (specRunCompare (specRuns a) (specRuns b)) := by
  have h := (interleave_compare ((charRuns a).length + (charRuns b).length)
    (charRuns a) (charRuns b) le_rfl (charRuns_ok a) (charRuns_ok b)).1
  simpa [natural_key, pySplit, specRuns] using h

/-- Shape predicate on a key list: when the flag is `false` a string element is
expected at the current (even) position, when `true` an integer element is
expected. -/
def keyAlt : Bool → List PyKey → Bool
  | _, [] => true
  | false, .str _ :: rest => keyAlt true rest
  | false, .int _ :: _ => false
  | true, .int _ :: rest => keyAlt false rest
  | true, .str _ :: _ => false

theorem interleave_alt :
    ∀ cs, chunksOk cs = true →
    keyAlt false ((interleave false cs).map keyOfSeg) = true ∧
    (dHead cs = true → keyAlt true ((interleave true cs).map keyOfSeg) = true) := by
  intro cs
  induction cs with
  | nil => intro _; exact ⟨by decide, fun _ => by decide⟩
  | cons p rest ih =>
    intro h
    obtain ⟨(_ | _), run⟩ := p
    · have hc := (chunksOk_head h).1
      have hk := keyOfSeg_text hc
      refine ⟨?_, ?_⟩
      · have := (ih (chunksOk_head h).2).2 (chunksOk_dHead h)
        simpa [interleave, hk, keyAlt] using this
      · intro hd; simp [dHead] at hd
    · have hc := (chunksOk_head h).1
      have hk := keyOfSeg_digit hc
      have := (ih (chunksOk_head h).2).1
      exact ⟨by simpa [interleave, hk, keyOfSeg_nil, keyAlt] using this,
        fun _ => by simpa [interleave, hk, keyAlt] using this⟩

/-- C6: the natural-order comparison on two names equals the specification's
run-by-run comparison — maximal digit runs by integer value, maximal non-digit
runs case-insensitively, shorter run sequence first on a common prefix (with
the code's digit-run-first resolution in the one situation §4.1 leaves
unspecified, namely when exactly one name starts with a digit) — and sorting
places "img2.png" before "img10.png" and "b" after "A". -/
theorem c6_natural_order :
    (∀ a b : Str, pyKeyListCompare (natural_key a) (natural_key b)
        = some (specRunCompare (specRuns a) (specRuns b)))
    ∧ pySortBy natLe ["img10.png".toList, "img2.png".toList]
        = ["img2.png".toList, "img10.png".toList]
    ∧ pySortBy natLe ["b".toList, "A".toList] = ["A".toList, "b".toList] :=
  ⟨natural_key_compare_eq_spec, by decide, by decide⟩

/-- C10: every `natural_key` value alternates string parts at even positions
with integer values at odd positions, and consequently comparing the keys of
any two names never fails (never compares an `int` against a `str`), so
sorting by this key is well defined. -/
theorem c10_natural_key_shape :
    (∀ s : Str, keyAlt false (natural_key s) = true)
    ∧ (∀ a b : Str, (pyKeyListCompare (natural_key a) (natural_key b)).isSome = true) := by
  constructor
  · intro s
    have h := (interleave_alt (charRuns s) (charRuns_ok s)).1
    simpa [natural_key, pySplit] using h
  · intro a b
    rw [natural_key_compare_eq_spec]; rfl

/-! ### JSON values and the metadata store -/

/-- JSON values carried by the server's metadata records: strings, integers,
booleans, lists of strings, null.  The update endpoints copy values verbatim,
so only equality and Python truthiness of values matter to the claims. -/
inductive JVal where
  | s (v : Str)
  | n (v : Int)
  | b (v : Bool)
  | strs (v : List Str)
  | null
  deriving DecidableEq

/-- Python truthiness of a JSON value (used by `if not manga_id: ...`). -/
def jTruthy : JVal → Bool
  | .s v => !v.isEmpty
  | .n v => v != 0
  | .b v => v
  | .strs v => !v.isEmpty
  | .null => false

/-- A JSON object (metadata record or update item), modelled as an
insertion-ordered association list with unique keys. -/
abbrev Rec := List (Str × JVal)

/-- The metadata store: a JSON object mapping logical ID (used as dict key)
to a record. -/
abbrev Meta := List (JVal × Rec)

/-- Python dict read `m.get(k)`. -/
def lookupA [DecidableEq κ] (m : List (κ × ν)) (key : κ) : Option ν :=
  match m with
  | [] => none
  | (k, w) :: rest => if k = key then some w else lookupA rest key

/-- Python dict assignment `m[k] = v`: replaces in place, appends when new. -/
def setA [DecidableEq κ] (m : List (κ × ν)) (key : κ) (v : ν) : List (κ × ν) :=
  match m with
  | [] => [(key, v)]
  | (k, w) :: rest => if k = key then (k, v) :: rest else (k, w) :: setA rest key v

/-! ### Catalog data model -/

/-- A page of a chapter (`server.py:390-393`). -/
structure PageEntry where
  name : Str
  url : Str
  deriving DecidableEq

/-- A chapter of a content entry (`server.py:395-399`). -/
structure ChapterEntry where
  id : Str
  title : Str
  pages : List PageEntry
  deriving DecidableEq

/-- The dict returned by `parse_manga_folder` (`server.py:408-418`). -/
structure MangaData where
  id : Str
  title : Str
  coverUrl : Str
  chapters : List ChapterEntry
  totalPages : Nat
  sourceId : Str
  isFullDetails : Bool
  author : Str
  keywords : List Str
  deriving DecidableEq

/-- A catalog entry after the metadata merge step (`server.py:444-451`).  The
merged `title` (and the overlay fields) may be arbitrary JSON values coming
from the store, so they are kept as `JVal` next to the parsed base record. -/
structure MergedEntry where
  base : MangaData
  title : JVal
  readCount : JVal
  isPinned : JVal
  lastReadAt : JVal
  collectionIds : JVal
  deriving DecidableEq

/-! ### LibraryCache (`server.py:184-206`) -/

/-- State of the `LibraryCache`: the cached merged listing and the time of the
last `set`.  Wall-clock times are modelled as rationals. -/
structure CacheSt where
  data : List MergedEntry
  last_updated : ℚ
  deriving DecidableEq

/-- `self.cache_duration = 300`. -/
def cache_duration : ℚ := 300

/-- `LibraryCache.get`, taking the current time as an argument:
returns the data only when young enough and (Python truthiness) non-empty. -/
def cacheGet (now : ℚ) (c : CacheSt) : Option (List MergedEntry) :=
  if now - c.last_updated < cache_duration ∧ c.data ≠ [] then some c.data else none

/-- `LibraryCache.set`, stamping the current time. -/
def cacheSet (now : ℚ) (d : List MergedEntry) : CacheSt :=
  { data := d, last_updated := now }

/-- `LibraryCache.clear`: empty data, epoch timestamp. -/
def cacheClear (_c : CacheSt) : CacheSt :=
  { data := [], last_updated := 0 }

/-! ### Filesystem model -/

/-- Parsed contents of a `xiangxi.txt` sidecar as written by the download task
(`server.py:593-602`); `keywords` and `tags` are kept as separate fields just
as in the file.  An absent or unparsable sidecar is `none` at the folder
level. -/
structure Sidecar where
  id : Option Str
  title : Option Str
  author : Option Str
  keywords : Option (List Str)
  tags : Option (List Str)
  deriving DecidableEq

/-- An entry inside a chapter folder (result of `os.scandir` there). -/
structure FileEnt where
  name : Str
  isFile : Bool
  deriving DecidableEq

/-- An immediate child of a content folder: a chapter subfolder (`isDir`) with
its own file listing, or a plain file. -/
structure ChildEntry where
  name : Str
  isDir : Bool
  entries : List FileEnt
  deriving DecidableEq

/-- A top-level content folder under the download root: its name, its sidecar
(if present and parsable) and its immediate children. -/
structure FolderData where
  name : Str
  sidecar : Option Sidecar
  children : List ChildEntry
  deriving DecidableEq

/-! ### parse_manga_folder (`server.py:333-418`) -/

/-- Recognized image extensions check:
`f.name.lower().endswith(('.jpg', '.jpeg', '.png', '.webp', '.gif'))`. -/
def hasImageExt (s : Str) : Bool :=
  [".jpg", ".jpeg", ".png", ".webp", ".gif"].any
    (fun ext => ext.toList.isSuffixOf (lowerStr s))

/-- The `extra_info` dict built from the sidecar (`server.py:340-357`).  Note
that the code reads only the sidecar's `keywords` field; the `tags` field is
never read here. -/
structure ExtraInfo where
  id : Option Str
  title : Option Str
  author : Str
  keywords : List Str
  deriving DecidableEq

/-- Sidecar parsing with silent fallback (`server.py:340-357`). -/
def readSidecarInfo : Option Sidecar → ExtraInfo
  | none => ⟨none, none, "Unknown".toList, []⟩
  | some sc => ⟨sc.id, sc.title, sc.author.getD "Unknown".toList, sc.keywords.getD []⟩

/-- `x if x else folder_name` (Python truthiness: `None` and `""` both fall
back to the folder name). -/
def orFolderName (v : Option Str) (folder : Str) : Str :=
  match v with
  | some s => if s.isEmpty then folder else s
  | none => folder

/-- `base_url = "http://localhost:8000/files"`. -/
def baseUrl : Str := "http://localhost:8000/files".toList

/-- Page/cover URL construction (`server.py:386-392`); `quote` is the
`urllib.parse.quote` percent-encoder, treated as an external function. -/
def pageUrl (quote : Str → Str) (folderName chapterName img : Str) : Str :=
  baseUrl ++ ('/' :: quote folderName) ++ ('/' :: quote chapterName) ++ ('/' :: quote img)

/-- Sorted recognized image names inside one chapter folder
(`server.py:378-381`); a listing failure yields `[]` exactly like the code's
bare `except`. -/
def chapterImages (ch : ChildEntry) : List Str :=
  pySortBy natLe ((ch.entries.filter (fun e => e.isFile && hasImageExt e.name)).map (fun e => e.name))

/-- One loop iteration of `server.py:371-399` producing a `ChapterEntry`;
`listImages` is `full_scan or is_first_chapter`. -/
def chapterOf (quote : Str → Str) (folderName : Str) (full_scan listImages : Bool)
    (ch : ChildEntry) : ChapterEntry :=
  let images := if listImages then chapterImages ch else []
  { id := ch.name, title := ch.name,
    pages := if full_scan then
        images.map (fun img => { name := img, url := pageUrl quote folderName ch.name img })
      else [] }

/-- `sub_dirs`: the folder's children sorted by natural key, then filtered to
directories (`server.py:362-367`). -/
def subDirsOf (folder : FolderData) : List ChildEntry :=
  (pySortBy (fun a b => natLe a.name b.name) folder.children).filter (fun c => c.isDir)

/-- `parse_manga_folder` (`server.py:333-418`).  The first chapter is the head
of `sub_dirs` (`chapter_entry == sub_dirs[0]` is an identity comparison on
`os.DirEntry` objects, which only the head satisfies).  Returns `none` when the
folder has no chapter subfolders. -/
def parse_manga_folder (quote : Str → Str) (folder : FolderData) (full_scan : Bool) :
    Option MangaData :=
  let extra := readSidecarInfo folder.sidecar
  let manga_id := orFolderName extra.id folder.name
  let manga_title := orFolderName extra.title folder.name
  let sub_dirs := subDirsOf folder
  let chapters :=
    match sub_dirs with
    | [] => []
    | c0 :: rest =>
      chapterOf quote folder.name full_scan true c0 ::
        rest.map (chapterOf quote folder.name full_scan full_scan)
  let cover_url :=
    if full_scan then []
    else
      match sub_dirs with
      | [] => []
      | c0 :: _ =>
        match chapterImages c0 with
        | [] => []
        | img :: _ => pageUrl quote folder.name c0.name img
  let total_pages := if full_scan then (chapters.map (fun c => c.pages.length)).sum else 0
  if chapters.isEmpty then none
  else some
    { id := manga_id, title := manga_title, coverUrl := cover_url, chapters := chapters,
      totalPages := total_pages, sourceId := folder.name, isFullDetails := full_scan,
      author := extra.author, keywords := extra.keywords }

/-! ### Server state and endpoints -/

/-- Shared server state: the download-root folders (the `/library` scan only
looks at directory entries, so only directories are modelled), the metadata
store contents, and the library cache. -/
structure SrvState where
  fs : List FolderData
  meta : Meta
  cache : CacheSt
  deriving DecidableEq

/-- Metadata merge step of the listing (`server.py:444-451`): `title` is
overridden only when present; the overlay fields always come from the record
with their defaults. -/
def mergeMeta (meta : Meta) (m : MangaData) : MergedEntry :=
  let r := (lookupA meta (.s m.id)).getD []
  { base := m,
    title := (lookupA r "title".toList).getD (.s m.title),
    readCount := (lookupA r "readCount".toList).getD (.n 0),
    isPinned := (lookupA r "isPinned".toList).getD (.b false),
    lastReadAt := (lookupA r "lastReadAt".toList).getD (.n 0),
    collectionIds := (lookupA r "collectionIds".toList).getD (.strs []) }

/-- The recompute path of `/library` (`server.py:429-455`): sort entries by
natural key, parse each directory with `full_scan=False`, drop `None` results,
merge each with the metadata store. -/
def computeLibrary (quote : Str → Str) (fs : List FolderData) (meta : Meta) :
    List MergedEntry :=
  ((pySortBy (fun a b => natLe a.name b.name) fs).filterMap
    (fun f => parse_manga_folder quote f false)).map (mergeMeta meta)

/-- `/library` without the `refresh` flag (`server.py:420-456`): serve the
cache when fresh, otherwise recompute and `set`. -/
def scan_library (quote : Str → Str) (now : ℚ) (st : SrvState) :
    List MergedEntry × SrvState :=
  match cacheGet now st.cache with
  | some d => (d, st)
  | none =>
    let ms := computeLibrary quote st.fs st.meta
    (ms, { st with cache := cacheSet now ms })

/-- The `"id"` dict key. -/
def idKey : Str := "id".toList

/-- Applying one update item's non-`id` keys onto a record
(`server.py:220-222` / `243-245`). -/
def applyItem (r : Rec) (item : Rec) : Rec :=
  item.foldl (fun acc kv => if kv.1 = idKey then acc else setA acc kv.1 kv.2) r

/-- `/update_metadata` (`server.py:208-228`): `none` models the 400 error for
a missing or falsy `id`; on success the record is merged, persisted, and the
cache cleared. -/
def update_metadata (d : Rec) (st : SrvState) : Option (Rec × SrvState) :=
  match lookupA d idKey with
  | none => none
  | some idv =>
    if jTruthy idv then
      let r1 := applyItem ((lookupA st.meta idv).getD []) d
      some (r1, { st with meta := setA st.meta idv r1, cache := cacheClear st.cache })
    else none

/-- One iteration of the `/update_metadata_batch` loop (`server.py:236-246`):
skip items without a truthy `id`, otherwise merge the item and count it. -/
def batchStep (acc : Nat × Meta) (item : Rec) : Nat × Meta :=
  match lookupA item idKey with
  | none => acc
  | some idv =>
    if jTruthy idv then
      (acc.1 + 1, setA acc.2 idv (applyItem ((lookupA acc.2 idv).getD []) item))
    else acc

/-- `/update_metadata_batch` (`server.py:230-252`): items without a truthy
`id` are skipped; each processed item increments `updated_count`; the cache is
cleared unconditionally at the end. -/
def update_metadata_batch (updates : List Rec) (st : SrvState) : Nat × SrvState :=
  let r := updates.foldl batchStep (0, st.meta)
  (r.1, { st with meta := r.2, cache := cacheClear st.cache })

/-- Result of `/delete_manga`. -/
inductive DelResult where
  | invalidName
  | ok
  | notFound
  deriving DecidableEq

/-- Python substring containment `pat in s`. -/
def isSubstring : Str → Str → Bool
  | pat, [] => pat.isEmpty
  | pat, c :: rest => pat.isPrefixOf (c :: rest) || isSubstring pat rest

/-- `".." in name or "/" in name or "\\" in name` (`server.py:495`). -/
def hasTraversal (name : Str) : Bool :=
  isSubstring "..".toList name || isSubstring "/".toList name || isSubstring "\\".toList name

/-- `/delete_manga` (`server.py:492-506`), with `shutil.rmtree` modelled as
succeeding: invalid names are rejected before any mutation; a missing folder
is a 404 with the state untouched; otherwise the tree is removed and the cache
cleared. -/
def delete_manga (name : Str) (st : SrvState) : DelResult × SrvState :=
  if hasTraversal name then (.invalidName, st)
  else if st.fs.any (fun f => f.name == name) then
    (.ok, { st with fs := st.fs.filter (fun f => !(f.name == name)),
                    cache := cacheClear st.cache })
  else (.notFound, st)

/-- ID resolution of one folder in `/sync_manga_names` (`server.py:524-533`):
the sidecar `id` when truthy, else the folder name. -/
def syncTargetId (f : FolderData) : Str :=
  match f.sidecar with
  | some sc =>
    match sc.id with
    | some i => if i.isEmpty then f.name else i
    | none => f.name
  | none => f.name

/-- One iteration of the `/sync_manga_names` loop (`server.py:519-547`): when
the folder has chapter subfolders, set the target record's title to the first
one (in natural order) and count the folder. -/
def syncStep (acc : Nat × Meta) (f : FolderData) : Nat × Meta :=
  let subs := pySortBy natLe ((f.children.filter (fun c => c.isDir)).map (fun c => c.name))
  match subs with
  | [] => acc
  | first :: _ =>
    let tid : JVal := .s (syncTargetId f)
    (acc.1 + 1, setA acc.2 tid (setA ((lookupA acc.2 tid).getD []) "title".toList (.s first)))

/-- `/sync_manga_names` (`server.py:508-561`): set each folder's title to its
first (naturally sorted) chapter-folder name; persist and clear the cache only
when at least one folder was touched (`if count > 0`). -/
def sync_manga_names (st : SrvState) : Nat × SrvState :=
  let r := st.fs.foldl syncStep (0, st.meta)
  if 0 < r.1 then
    let merged := r.2.foldl
      (fun cur p => setA cur p.1 (p.2.foldl (fun rec2 kv => setA rec2 kv.1 kv.2)
        ((lookupA cur p.1).getD [])))
      st.meta
    (r.1, { st with meta := merged, cache := cacheClear st.cache })
  else (r.1, st)

/-! ### Download task (`server.py:563-633`) -/

/-- What `client.get_album_detail` returns on success. -/
structure AlbumInfo where
  album_id : Str
  title : Str
  author : Str
  keywords : List Str
  tags : List Str
  description : Str
  total_pages : Nat
  deriving DecidableEq

/-- Oracles for the external `jmcomic` capability: `fetchMeta` is
`get_album_detail` together with the sidecar write (a `none` models the
exception caught at `server.py:617`), and the download oracles return `false`
when `download_album` / `download_photo` raises. -/
structure DlOracle where
  fetchMeta : Str → Option AlbumInfo
  downloadAlbum : Str → Bool
  downloadPhoto : Str → Bool

/-- Log lines emitted by the download worker, identified structurally: the
start / fetching / sidecar-saved / fetch-failed lines, the per-item outcome
lines (`✅ ... 图片下载完成` / `❌ ... 失败`) and the `[BATCH_DONE]` line. -/
inductive LogLine where
  | start (id : Str)
  | fetching (id : Str)
  | metaSaved (id : Str)
  | metaFailed (id : Str)
  | itemOk (id : Str)
  | itemFail (id : Str)
  | batchDone
  deriving DecidableEq

/-- Calls made to the external capability. -/
inductive ExtCall where
  | getAlbum (id : Str)
  | downloadAlbum (id : Str)
  | downloadPhoto (id : Str)
  deriving DecidableEq

/-- State threaded through the download worker: the shared metadata store and
library cache, plus the emission traces (log lines as printed, external calls,
sidecar files written, identified by item ID). -/
structure TaskState where
  meta : Meta
  cache : CacheSt
  emitted : List LogLine
  calls : List ExtCall
  sidecars : List Str
  deriving DecidableEq

/-- Model of Python `str.strip()`. -/
def pyStrip (s : Str) : Str :=
  ((s.dropWhile Char.isWhitespace).reverse.dropWhile Char.isWhitespace).reverse

/-- `item_id.lower().startswith('p')` (`server.py:587`). -/
def isPhotoId (s : Str) : Bool :=
  match s with
  | [] => false
  | c :: _ => c.toLower == 'p'

/-- The metadata upsert in the worker (`server.py:608-614`): set the item's
`title`, keyed by the (stripped) item ID. -/
def metaSetTitle (meta : Meta) (id : Str) (title : Str) : Meta :=
  setA meta (.s id) (setA ((lookupA meta (.s id)).getD []) "title".toList (.s title))

/-- One iteration of the worker loop (`server.py:571-627`): strip and skip
empty IDs; for non-photo IDs fetch metadata first (writing the sidecar,
upserting the title and clearing the cache on success, only logging on
failure), then attempt the download either way; log one outcome line. -/
def processItem (oracle : DlOracle) (st : TaskState) (raw : Str) : TaskState :=
  let id := pyStrip raw
  if id.isEmpty then st
  else
    let st1 := { st with emitted := st.emitted ++ [LogLine.start id] }
    if isPhotoId id then
      let st2 := { st1 with calls := st1.calls ++ [ExtCall.downloadPhoto (id.drop 1)] }
      if oracle.downloadPhoto (id.drop 1) then
        { st2 with emitted := st2.emitted ++ [LogLine.itemOk id] }
      else { st2 with emitted := st2.emitted ++ [LogLine.itemFail id] }
    else
      let st2 := { st1 with emitted := st1.emitted ++ [LogLine.fetching id],
                            calls := st1.calls ++ [ExtCall.getAlbum id] }
      let st3 :=
        match oracle.fetchMeta id with
        | some album =>
          { st2 with sidecars := st2.sidecars ++ [id],
                     meta := metaSetTitle st2.meta id album.title,
                     cache := cacheClear st2.cache,
                     emitted := st2.emitted ++ [LogLine.metaSaved id] }
        | none => { st2 with emitted := st2.emitted ++ [LogLine.metaFailed id] }
      let st4 := { st3 with calls := st3.calls ++ [ExtCall.downloadAlbum id] }
      if oracle.downloadAlbum id then
        { st4 with emitted := st4.emitted ++ [LogLine.itemOk id] }
      else { st4 with emitted := st4.emitted ++ [LogLine.itemFail id] }

/-- The whole worker (`server.py:563-633`): process items in order, then clear
the cache once more and emit the batch-complete line. -/
def run_download_task (ids : List Str) (oracle : DlOracle) (meta0 : Meta)
    (cache0 : CacheSt) : TaskState :=
  let st := ids.foldl (processItem oracle) ⟨meta0, cache0, [], [], []⟩
  { st with cache := cacheClear st.cache, emitted := st.emitted ++ [LogLine.batchDone] }

/-! ### Per-item traces of the download worker -/

/-- Log lines one item contributes (mirrors the branches of `processItem`). -/
def emittedOfItem (oracle : DlOracle) (raw : Str) : List LogLine :=
  let id := pyStrip raw
  if id.isEmpty then []
  else if isPhotoId id then
    [LogLine.start id] ++
      (if oracle.downloadPhoto (id.drop 1) then [LogLine.itemOk id] else [LogLine.itemFail id])
  else
    [LogLine.start id, LogLine.fetching id] ++
      (match oracle.fetchMeta id with
       | some _ => [LogLine.metaSaved id]
       | none => [LogLine.metaFailed id]) ++
      (if oracle.downloadAlbum id then [LogLine.itemOk id] else [LogLine.itemFail id])

/-- External calls one item contributes. -/
def callsOfItem (_oracle : DlOracle) (raw : Str) : List ExtCall :=
  let id := pyStrip raw
  if id.isEmpty then []
  else if isPhotoId id then [ExtCall.downloadPhoto (id.drop 1)]
  else [ExtCall.getAlbum id, ExtCall.downloadAlbum id]

/-- The sidecar one item writes, if any. -/
def sidecarOfItem (oracle : DlOracle) (raw : Str) : Option Str :=
  let id := pyStrip raw
  if id.isEmpty then none
  else if isPhotoId id then none
  else if (oracle.fetchMeta id).isSome then some id else none

/-- The cache after one item: cleared exactly when the item's metadata fetch
succeeded. -/
def cacheAfterItem (oracle : DlOracle) (c : CacheSt) (raw : Str) : CacheSt :=
  let id := pyStrip raw
  if id.isEmpty then c
  else if isPhotoId id then c
  else if (oracle.fetchMeta id).isSome then cacheClear c else c

/-- The metadata store after one item. -/
def metaAfterItem (oracle : DlOracle) (m : Meta) (raw : Str) : Meta :=
  let id := pyStrip raw
  if id.isEmpty then m
  else if isPhotoId id then m
  else
    match oracle.fetchMeta id with
    | some album => metaSetTitle m id album.title
    | none => m

theorem processItem_spec (oracle : DlOracle) (st : TaskState) (raw : Str) :
    processItem oracle st raw =
      { meta := metaAfterItem oracle st.meta raw,
        cache := cacheAfterItem oracle st.cache raw,
        emitted := st.emitted ++ emittedOfItem oracle raw,
        calls := st.calls ++ callsOfItem oracle raw,
        sidecars := st.sidecars ++ (sidecarOfItem oracle raw).toList } := by
  obtain ⟨m, c, em, ca, sc⟩ := st
  by_cases h1 : (pyStrip raw).isEmpty
  · simp [processItem, emittedOfItem, callsOfItem, sidecarOfItem, cacheAfterItem,
      metaAfterItem, h1]
  · by_cases hp : isPhotoId (pyStrip raw)
    · cases hph : oracle.downloadPhoto ((pyStrip raw).tail) <;>
        simp [processItem, emittedOfItem, callsOfItem, sidecarOfItem, cacheAfterItem,
          metaAfterItem, h1, hp, hph, List.drop_one]
    · cases hf : oracle.fetchMeta (pyStrip raw) <;>
        cases hd : oracle.downloadAlbum (pyStrip raw) <;>
          simp [processItem, emittedOfItem, callsOfItem, sidecarOfItem, cacheAfterItem,
            metaAfterItem, h1, hp, hf, hd]

theorem foldl_processItem_spec (oracle : DlOracle) :
    ∀ (ids : List Str) (st : TaskState),
    ids.foldl (processItem oracle) st =
      { meta := ids.foldl (metaAfterItem oracle) st.meta,
        cache := ids.foldl (cacheAfterItem oracle) st.cache,
        emitted := st.emitted ++ ids.flatMap (emittedOfItem oracle),
        calls := st.calls ++ ids.flatMap (callsOfItem oracle),
        sidecars := st.sidecars ++ ids.filterMap (sidecarOfItem oracle) } := by
  intro ids
  induction ids with
  | nil => intro st; cases st; simp
  | cons a as ih =>
    intro st
    obtain ⟨m, c, em, ca, sc⟩ := st
    rw [List.foldl_cons, processItem_spec, ih]
    cases hs : sidecarOfItem oracle a <;>
      simp [List.filterMap_cons, hs, List.append_assoc]

theorem run_download_task_spec (ids : List Str) (oracle : DlOracle) (m0 : Meta)
    (c0 : CacheSt) :
    run_download_task ids oracle m0 c0 =
      { meta := ids.foldl (metaAfterItem oracle) m0,
        cache := cacheClear (ids.foldl (cacheAfterItem oracle) c0),
        emitted := ids.flatMap (emittedOfItem oracle) ++ [LogLine.batchDone],
        calls := ids.flatMap (callsOfItem oracle),
        sidecars := ids.filterMap (sidecarOfItem oracle) } := by
  rw [run_download_task, foldl_processItem_spec]
  simp

/-! ### C4 — batch error handling -/

/-- Whether a log line is a per-item outcome line
(`✅ ... 图片下载完成` / `❌ ... 失败`). -/
def isOutcome : LogLine → Bool
  | .itemOk _ => true
  | .itemFail _ => true
  | _ => false

/-- Whether a log line is the `[BATCH_DONE]` line. -/
def isBatchDone : LogLine → Bool
  | .batchDone => true
  | _ => false

theorem emittedOfItem_outcomes (oracle : DlOracle) (raw : Str) :
    ((emittedOfItem oracle raw).filter isOutcome).length
      = if (pyStrip raw).isEmpty then 0 else 1 := by
  by_cases h1 : (pyStrip raw).isEmpty
  · simp [emittedOfItem, h1]
  · by_cases hp : isPhotoId (pyStrip raw)
    · cases hph : oracle.downloadPhoto ((pyStrip raw).tail) <;>
        simp [emittedOfItem, h1, hp, hph, isOutcome, List.drop_one]
    · cases hf : oracle.fetchMeta (pyStrip raw) <;>
        cases hd : oracle.downloadAlbum (pyStrip raw) <;>
          simp [emittedOfItem, h1, hp, hf, hd, isOutcome]

theorem emittedOfItem_no_batchdone (oracle : DlOracle) (raw : Str) :
    (emittedOfItem oracle raw).filter isBatchDone = [] := by
  by_cases h1 : (pyStrip raw).isEmpty
  · simp [emittedOfItem, h1]
  · by_cases hp : isPhotoId (pyStrip raw)
    · cases hph : oracle.downloadPhoto ((pyStrip raw).tail) <;>
        simp [emittedOfItem, h1, hp, hph, isBatchDone, List.drop_one]
    · cases hf : oracle.fetchMeta (pyStrip raw) <;>
        cases hd : oracle.downloadAlbum (pyStrip raw) <;>
          simp [emittedOfItem, h1, hp, hf, hd, isBatchDone]

theorem flatMap_outcome_count (oracle : DlOracle) :
    ∀ ids : List Str,
    ((ids.flatMap (emittedOfItem oracle)).filter isOutcome).length
      = ((ids.map pyStrip).filter (fun s => !s.isEmpty)).length := by
  intro ids
  induction ids with
  | nil => simp
  | cons a as ih =>
    by_cases h1 : (pyStrip a).isEmpty <;>
      simp [List.filter_append, emittedOfItem_outcomes, h1, ih, Nat.add_comm]

theorem flatMap_no_batchdone (oracle : DlOracle) :
    ∀ ids : List Str, (ids.flatMap (emittedOfItem oracle)).filter isBatchDone = [] := by
  intro ids
  induction ids with
  | nil => simp
  | cons a as ih => simp [List.filter_append, emittedOfItem_no_batchdone, ih]

theorem callsOfItem_download_mem {oracle : DlOracle} {raw : Str}
    (h1 : (pyStrip raw).isEmpty = false) :
    (if isPhotoId (pyStrip raw) then ExtCall.downloadPhoto ((pyStrip raw).drop 1)
     else ExtCall.downloadAlbum (pyStrip raw)) ∈ callsOfItem oracle raw := by
  by_cases hp : isPhotoId (pyStrip raw) <;> simp [callsOfItem, h1, hp]

theorem sidecarOfItem_eq_some {oracle : DlOracle} {raw id : Str} :
    sidecarOfItem oracle raw = some id ↔
      (pyStrip raw = id ∧ id.isEmpty = false ∧ isPhotoId id = false
        ∧ (oracle.fetchMeta id).isSome = true) := by
  constructor
  · intro h
    unfold sidecarOfItem at h
    by_cases h1 : (pyStrip raw).isEmpty
    · simp [h1] at h
    · by_cases hp : isPhotoId (pyStrip raw)
      · simp [h1, hp] at h
      · by_cases hf : (oracle.fetchMeta (pyStrip raw)).isSome
        · simp only [h1, hp, hf, if_true, if_false, Bool.false_eq_true] at h
          injection h with h'
          subst h'
          exact ⟨rfl, by simpa using h1, by simpa using hp, hf⟩
        · simp [h1, hp, hf] at h
  · rintro ⟨rfl, h2, h3, h4⟩
    simp [sidecarOfItem, h2, h3, h4]

/-- C4: for every batch: each non-empty item yields exactly one per-item
outcome log line (so a single item's failure never prevents the rest from
being attempted); exactly one batch-complete line is emitted; every non-empty
item's content download is attempted — for non-photo items via
`download_album`, regardless of whether its metadata fetch succeeded; and a
sidecar file is written exactly for the non-photo items whose metadata fetch
succeeded (in particular, only for items whose metadata fetch succeeded). -/
theorem c4_batch_error_handling (ids : List Str) (oracle : DlOracle) (m0 : Meta)
    (c0 : CacheSt) :
    ((run_download_task ids oracle m0 c0).emitted.filter isOutcome).length
        = ((ids.map pyStrip).filter (fun s => !s.isEmpty)).length
    ∧ ((run_download_task ids oracle m0 c0).emitted.filter isBatchDone).length = 1
    ∧ (∀ id, id ∈ (ids.map pyStrip).filter (fun s => !s.isEmpty) →
        (if isPhotoId id then ExtCall.downloadPhoto (id.drop 1)
         else ExtCall.downloadAlbum id) ∈ (run_download_task ids oracle m0 c0).calls)
    ∧ (∀ id, id ∈ (run_download_task ids oracle m0 c0).sidecars ↔
        (id ∈ ids.map pyStrip ∧ id.isEmpty = false ∧ isPhotoId id = false
          ∧ (oracle.fetchMeta id).isSome = true)) := by
  rw [run_download_task_spec]
  refine ⟨?_, ?_, ?_, ?_⟩
  · simp [List.filter_append, flatMap_outcome_count, isOutcome]
  · simp [List.filter_append, flatMap_no_batchdone, isBatchDone]
  · intro id hid
    simp only [List.mem_filter, List.mem_map] at hid
    obtain ⟨⟨raw, hraw, rfl⟩, hne⟩ := hid
    have hne' : (pyStrip raw).isEmpty = false := by simpa using hne
    exact List.mem_flatMap.mpr ⟨raw, hraw, callsOfItem_download_mem hne'⟩
  · intro id
    rw [List.mem_filterMap]
    constructor
    · rintro ⟨raw, hraw, hsc⟩
      obtain ⟨rfl, h2, h3, h4⟩ := sidecarOfItem_eq_some.mp hsc
      exact ⟨List.mem_map.mpr ⟨raw, hraw, rfl⟩, h2, h3, h4⟩
    · rintro ⟨hmem, h2, h3, h4⟩
      obtain ⟨raw, hraw, rfl⟩ := List.mem_map.mp hmem
      exact ⟨raw, hraw, sidecarOfItem_eq_some.mpr ⟨rfl, h2, h3, h4⟩⟩

/-- A concrete oracle for the witnesses: the metadata fetch succeeds only for
the ID "2", downloads always succeed. -/
def c4oracle : DlOracle :=
  { fetchMeta := fun id =>
      if id = "2".toList then
        some { album_id := "2".toList, title := "T".toList, author := "A".toList,
               keywords := [], tags := [], description := [], total_pages := 1 }
      else none,
    downloadAlbum := fun _ => true,
    downloadPhoto := fun _ => true }

/-- C4 witness: a batch of two IDs where the first's metadata fetch fails and
the second's succeeds still attempts both downloads, emits two outcome lines
and one batch-complete line, and writes only the second item's sidecar. -/
theorem c4_witness :
    ((run_download_task ["1".toList, "2".toList] c4oracle [] ⟨[], 0⟩).emitted.filter
        isOutcome).length = 2
    ∧ ((run_download_task ["1".toList, "2".toList] c4oracle [] ⟨[], 0⟩).emitted.filter
        isBatchDone).length = 1
    ∧ ExtCall.downloadAlbum "1".toList
        ∈ (run_download_task ["1".toList, "2".toList] c4oracle [] ⟨[], 0⟩).calls
    ∧ ExtCall.downloadAlbum "2".toList
        ∈ (run_download_task ["1".toList, "2".toList] c4oracle [] ⟨[], 0⟩).calls
    ∧ "2".toList ∈ (run_download_task ["1".toList, "2".toList] c4oracle [] ⟨[], 0⟩).sidecars
    ∧ "1".toList ∉ (run_download_task ["1".toList, "2".toList] c4oracle [] ⟨[], 0⟩).sidecars := by
  have h := c4_batch_error_handling ["1".toList, "2".toList] c4oracle [] ⟨[], 0⟩
  refine ⟨h.1.trans (by decide), h.2.1, ?_, ?_, ?_, ?_⟩
  · have := h.2.2.1 "1".toList (by decide)
    simpa using this
  · have := h.2.2.1 "2".toList (by decide)
    simpa using this
  · exact (h.2.2.2 "2".toList).mpr ⟨by decide, by decide, by decide, by decide⟩
  · intro hmem
    have := (h.2.2.2 "1".toList).mp hmem
    exact absurd this.2.2.2 (by decide)

/-! ### Sample data used by witnesses and counterexamples -/

/-- A concrete catalog entry. -/
def sampleManga : MangaData :=
  { id := "A".toList, title := "A".toList, coverUrl := [],
    chapters := [{ id := "ch1".toList, title := "ch1".toList, pages := [] }],
    totalPages := 0, sourceId := "A".toList, isFullDetails := false,
    author := "Unknown".toList, keywords := [] }

/-- A concrete merged entry. -/
def sampleMerged : MergedEntry :=
  { base := sampleManga, title := .s "A".toList, readCount := .n 0,
    isPinned := .b false, lastReadAt := .n 0, collectionIds := .strs [] }

/-- A sidecar carrying both a `keywords` and a `tags` field. -/
def c3sidecar : Sidecar :=
  { id := none, title := none, author := none,
    keywords := some ["a".toList], tags := some ["b".toList] }

/-- A folder with the sidecar above and one chapter subfolder. -/
def c3folder : FolderData :=
  { name := "A".toList, sidecar := some c3sidecar,
    children := [{ name := "ch1".toList, isDir := true, entries := [] }] }

/-- The entry `parse_manga_folder` produces for `c3folder` on a non-full
scan. -/
def c3entry : MangaData :=
  { id := "A".toList, title := "A".toList, coverUrl := [],
    chapters := [{ id := "ch1".toList, title := "ch1".toList, pages := [] }],
    totalPages := 0, sourceId := "A".toList, isFullDetails := false,
    author := "Unknown".toList, keywords := ["a".toList] }

/-- An empty server state. -/
def emptySrv : SrvState :=
  { fs := [], meta := [], cache := { data := [], last_updated := 0 } }

/-- A server state holding the folder "A", some metadata-free store and a
fresh non-empty cache. -/
def c9srv : SrvState :=
  { fs := [c3folder], meta := [],
    cache := { data := [sampleMerged], last_updated := 0 } }

/-! ### Shared helper lemmas -/

theorem cacheGet_clear (now : ℚ) (c : CacheSt) : cacheGet now (cacheClear c) = none := by
  simp [cacheGet, cacheClear]

theorem scan_library_cleared {st : SrvState} (h : st.cache.data = [])
    (quote : Str → Str) (now : ℚ) :
    (scan_library quote now st).1 = computeLibrary quote st.fs st.meta := by
  simp [scan_library, cacheGet, h]

theorem mem_insSorted {le : α → α → Bool} {x y : α} {l : List α} :
    y ∈ insSorted le x l ↔ y = x ∨ y ∈ l := by
  induction l with
  | nil => simp [insSorted]
  | cons z zs ih =>
    by_cases hle : le x z = true
    · simp [insSorted, hle, List.mem_cons]
    · have hle' : le x z = false := by simpa using hle
      simp only [insSorted, hle', Bool.false_eq_true, if_false, List.mem_cons, ih]
      tauto

theorem mem_pySortBy {le : α → α → Bool} {y : α} {l : List α} :
    y ∈ pySortBy le l ↔ y ∈ l := by
  induction l with
  | nil => simp [pySortBy]
  | cons z zs ih =>
    show y ∈ insSorted le z (pySortBy le zs) ↔ _
    rw [mem_insSorted]
    simp [ih]

theorem parse_some_chapters {quote : Str → Str} {folder : FolderData} {full_scan : Bool}
    {e : MangaData} (h : parse_manga_folder quote folder full_scan = some e) :
    e.chapters ≠ [] := by
  simp only [parse_manga_folder] at h
  split at h
  · exact absurd h (by simp)
  · rename_i hne
    injection h with h'
    subst h'
    simpa using hne

theorem subDirsOf_eq_nil {folder : FolderData}
    (h : folder.children.all (fun c => !c.isDir) = true) : subDirsOf folder = [] := by
  unfold subDirsOf
  rw [List.filter_eq_nil_iff]
  intro c hc
  have hmem : c ∈ folder.children := mem_pySortBy.mp hc
  simp only [List.all_eq_true] at h
  simpa using h c hmem

/-! ### C2 — LibraryCache get/set/clear -/

/-- C2 (amended): `get()` is absent immediately after `clear()`; after
`set(v)` with a non-empty `v`, a `get()` within the TTL window returns `v` —
an empty `v` always reads back as absent because `get` also requires the data
to be truthy; once more than the TTL has elapsed since the last `set()`,
`get()` is absent. -/
theorem c2_cache_ttl :
    (∀ (c : CacheSt) (now : ℚ), cacheGet now (cacheClear c) = none)
    ∧ (∀ (t now : ℚ) (v : List MergedEntry), v ≠ [] → now - t < cache_duration →
        cacheGet now (cacheSet t v) = some v)
    ∧ (∀ (t now : ℚ) (v : List MergedEntry), cache_duration < now - t →
        cacheGet now (cacheSet t v) = none) := by
  refine ⟨fun c now => by simp [cacheGet, cacheClear], ?_, ?_⟩
  · intro t now v hv ht
    simp [cacheGet, cacheSet, ht, hv]
  · intro t now v ht
    have hnot : ¬(now - t < cache_duration) := not_lt.mpr (le_of_lt ht)
    simp [cacheGet, cacheSet, hnot]

/-- C2 counterexample: the claim demands that a `get()` within the TTL window
returns the last `set()` value for EVERY value; but `set([])` followed by an
immediate `get()` (age `0 < 300`) returns absent, because `get` requires
`self.data` to be truthy. -/
theorem c2_counterexample :
    ((0 : ℚ) - 0 < cache_duration)
    ∧ cacheGet 0 (cacheSet 0 ([] : List MergedEntry)) = none := by
  constructor
  · norm_num [cache_duration]
  · simp [cacheGet, cacheSet]

/-- C2 witness: the amended theorem at concrete inputs. -/
theorem c2_witness :
    cacheGet 10 (cacheClear ⟨[sampleMerged], 5⟩) = none
    ∧ cacheGet 10 (cacheSet 0 [sampleMerged]) = some [sampleMerged]
    ∧ cacheGet 400 (cacheSet 0 [sampleMerged]) = none :=
  ⟨c2_cache_ttl.1 ⟨[sampleMerged], 5⟩ 10,
   c2_cache_ttl.2.1 0 10 [sampleMerged] (by simp) (by norm_num [cache_duration]),
   c2_cache_ttl.2.2 0 400 [sampleMerged] (by norm_num [cache_duration])⟩

/-! ### C3 — keywords from the sidecar -/

/-- Deduplication keeping the first occurrence of each element. -/
def dedupFirstAux [DecidableEq α] (seen : List α) : List α → List α
  | [] => []
  | x :: xs => if x ∈ seen then dedupFirstAux seen xs else x :: dedupFirstAux (x :: seen) xs

/-- Order-of-first-appearance deduplication. -/
def dedupFirst [DecidableEq α] (l : List α) : List α := dedupFirstAux [] l

/-- Modelled from the spec (§3): the deduplicated union of the sidecar
`keywords` and `tags` fields, order of first appearance preserved. -/
def specKeywordsUnion (kws tags : List Str) : List Str := dedupFirst (kws ++ tags)

/-- C3 (amended): for a folder whose sidecar is present and parsable, the
produced entry's `keywords` is the sidecar's `keywords` field taken verbatim
(empty when the field is absent); the `tags` field is ignored and no
deduplication is applied. -/
theorem c3_keywords_from_sidecar (quote : Str → Str) (folder : FolderData) (sc : Sidecar)
    (full_scan : Bool) (hsc : folder.sidecar = some sc) :
    ∀ e, parse_manga_folder quote folder full_scan = some e →
      e.keywords = sc.keywords.getD [] := by
  intro e h
  simp only [parse_manga_folder] at h
  split at h
  · exact absurd h (by simp)
  · injection h with h'
    subst h'
    simp [readSidecarInfo, hsc]

/-- C3 counterexample: with sidecar `keywords=["a"], tags=["b"]` the entry's
`keywords` is `["a"]`, not the deduplicated union `["a","b"]` the claim
demands. -/
theorem c3_counterexample :
    (parse_manga_folder (fun s => s) c3folder false).map MangaData.keywords
        = some ["a".toList]
    ∧ specKeywordsUnion ["a".toList] ["b".toList] = ["a".toList, "b".toList]
    ∧ (parse_manga_folder (fun s => s) c3folder false).map MangaData.keywords
        ≠ some (specKeywordsUnion ["a".toList] ["b".toList]) := by
  refine ⟨?_, ?_, ?_⟩ <;> decide

/-- C3 witness: the amended theorem at the concrete folder. -/
theorem c3_witness :
    parse_manga_folder (fun s => s) c3folder false = some c3entry
    ∧ c3entry.keywords = c3sidecar.keywords.getD [] :=
  ⟨by decide,
   c3_keywords_from_sidecar (fun s => s) c3folder c3sidecar false rfl c3entry (by decide)⟩

/-! ### C5 — batch update count -/

/-- The truthy `id` of an update item, when it has one. -/
def itemId (item : Rec) : Option JVal :=
  match lookupA item idKey with
  | some v => if jTruthy v then some v else none
  | none => none

theorem batchStep_count :
    ∀ (updates : List Rec) (cnt : Nat) (meta : Meta),
    (updates.foldl batchStep (cnt, meta)).1 = cnt + (updates.filterMap itemId).length := by
  intro updates
  induction updates with
  | nil => intro cnt meta; simp
  | cons item rest ih =>
    intro cnt meta
    simp only [List.foldl_cons, List.filterMap_cons]
    cases hl : lookupA item idKey with
    | none => simp [batchStep, hl, itemId, ih]
    | some v =>
      cases hv : jTruthy v with
      | false => simp [batchStep, hl, hv, itemId, ih]
      | true =>
        simp only [batchStep, hl, hv, if_true, itemId, ih, List.length_cons]
        omega

theorem dedupFirstAux_of_nodup [DecidableEq α] :
    ∀ (l seen : List α), l.Nodup → (∀ x ∈ l, x ∉ seen) → dedupFirstAux seen l = l := by
  intro l
  induction l with
  | nil => intro seen _ _; rfl
  | cons x xs ih =>
    intro seen hnd hdisj
    have hx : x ∉ seen := hdisj x (by simp)
    rw [List.nodup_cons] at hnd
    simp only [dedupFirstAux, if_neg hx]
    rw [ih (x :: seen) hnd.2]
    intro y hy
    simp only [List.mem_cons, not_or]
    exact ⟨fun hyx => hnd.1 (hyx ▸ hy), hdisj y (by simp [hy])⟩

theorem dedupFirst_of_nodup [DecidableEq α] (l : List α) (h : l.Nodup) :
    dedupFirst l = l :=
  dedupFirstAux_of_nodup l [] h (by simp)

/-- C5 (amended): `upsertBatch` returns the number of update items carrying a
truthy `id` — items lacking an `id` are skipped and excluded from the count —
and when the carried IDs are pairwise distinct this equals the number of
distinct IDs touched.  (Duplicate IDs in one batch are each counted, so the
original "N distinct IDs → count N" fails; see the counterexample.) -/
theorem c5_batch_count (updates : List Rec) (st : SrvState) :
    (update_metadata_batch updates st).1 = (updates.filterMap itemId).length
    ∧ ((updates.filterMap itemId).Nodup →
        (update_metadata_batch updates st).1 = (dedupFirst (updates.filterMap itemId)).length) := by
  have h1 : (update_metadata_batch updates st).1 = (updates.filterMap itemId).length := by
    simp [update_metadata_batch, batchStep_count]
  exact ⟨h1, fun hnd => by rw [h1, dedupFirst_of_nodup _ hnd]⟩

/-- An update item with id "a". -/
def c5item1 : Rec := [("id".toList, .s "a".toList), ("x".toList, .n 1)]

/-- Another update item with the same id "a". -/
def c5item2 : Rec := [("id".toList, .s "a".toList), ("y".toList, .n 2)]

/-- An update item with id "b". -/
def c5item3 : Rec := [("id".toList, .s "b".toList), ("y".toList, .n 2)]

/-- C5 counterexample: a batch of two items sharing the single ID "a" touches
one distinct ID but reports count 2, refuting "a batch touching N distinct
IDs reports count N". -/
theorem c5_counterexample :
    (update_metadata_batch [c5item1, c5item2] emptySrv).1 = 2
    ∧ dedupFirst ([c5item1, c5item2].filterMap itemId) = [JVal.s "a".toList] := by
  constructor <;> decide

/-- C5 witness: the amended theorem at a batch with two distinct IDs. -/
theorem c5_witness :
    (update_metadata_batch [c5item1, c5item3] emptySrv).1
      = (dedupFirst ([c5item1, c5item3].filterMap itemId)).length :=
  (c5_batch_count [c5item1, c5item3] emptySrv).2 (by decide)

/-! ### C8 — no empty-chapter entries -/

/-- C8: a content folder with zero chapter subfolders yields `None` from
`parse_manga_folder`; every entry it does produce has a non-empty chapter
list; hence no entry of a library scan has an empty chapter list. -/
theorem c8_no_empty_entries (quote : Str → Str) :
    (∀ folder : FolderData, folder.children.all (fun c => !c.isDir) = true →
      ∀ full_scan, parse_manga_folder quote folder full_scan = none)
    ∧ (∀ folder full_scan e, parse_manga_folder quote folder full_scan = some e →
        e.chapters ≠ [])
    ∧ (∀ fs meta m, m ∈ computeLibrary quote fs meta → m.base.chapters ≠ []) := by
  refine ⟨?_, ?_, ?_⟩
  · intro folder hall full_scan
    have h0 : subDirsOf folder = [] := subDirsOf_eq_nil hall
    simp [parse_manga_folder, h0]
  · exact fun folder fs e h => parse_some_chapters h
  · intro fs meta m hm
    simp only [computeLibrary, List.mem_map] at hm
    obtain ⟨md, hmd, rfl⟩ := hm
    simp only [List.mem_filterMap] at hmd
    obtain ⟨f, _, hparse⟩ := hmd
    exact parse_some_chapters hparse

/-- A folder whose only child is a plain file (no chapter subfolders). -/
def c8folder : FolderData :=
  { name := "B".toList, sidecar := none,
    children := [{ name := "f.txt".toList, isDir := false, entries := [] }] }

/-- C8 witness: the theorem at a concrete chapterless folder and at a concrete
produced entry. -/
theorem c8_witness :
    parse_manga_folder (fun s => s) c8folder false = none
    ∧ parse_manga_folder (fun s => s) c8folder true = none
    ∧ c3entry.chapters ≠ [] :=
  ⟨(c8_no_empty_entries (fun s => s)).1 c8folder (by decide) false,
   (c8_no_empty_entries (fun s => s)).1 c8folder (by decide) true,
   (c8_no_empty_entries (fun s => s)).2.1 c3folder false c3entry (by decide)⟩

/-! ### C7 — cover URL and totalPages -/

/-- C7: for a folder with at least one chapter subfolder, a non-full scan
takes the cover URL from the first image of the first (naturally sorted)
chapter — empty when that chapter has no recognized image — and reports
`totalPages = 0`; a full scan sets no cover URL, populates every chapter's
page list, and reports `totalPages` equal to the sum of all chapters' page
counts. -/
theorem c7_cover_totalpages (quote : Str → Str) (folder : FolderData)
    (c0 : ChildEntry) (rest : List ChildEntry) (h : subDirsOf folder = c0 :: rest) :
    (parse_manga_folder quote folder false).map MangaData.totalPages = some 0
    ∧ (parse_manga_folder quote folder false).map MangaData.coverUrl
        = some (match chapterImages c0 with
            | [] => []
            | img :: _ => pageUrl quote folder.name c0.name img)
    ∧ (parse_manga_folder quote folder true).map MangaData.coverUrl = some []
    ∧ (parse_manga_folder quote folder true).map MangaData.chapters
        = some ((c0 :: rest).map (fun ch =>
            { id := ch.name, title := ch.name,
              pages := (chapterImages ch).map (fun img =>
                { name := img, url := pageUrl quote folder.name ch.name img }) }))
    ∧ (parse_manga_folder quote folder true).map MangaData.totalPages
        = some (((c0 :: rest).map (fun ch => (chapterImages ch).length)).sum) := by
  have hlen : ∀ ch, ((chapterOf quote folder.name true true ch).pages).length
      = (chapterImages ch).length := fun ch => by simp [chapterOf]
  refine ⟨?_, ?_, ?_, ?_, ?_⟩ <;>
    simp [parse_manga_folder, h, chapterOf, Function.comp_def, hlen]

/-- First chapter folder of the witness: two recognized images. -/
def c7ch1 : ChildEntry :=
  { name := "ch1".toList, isDir := true,
    entries := [{ name := "1.jpg".toList, isFile := true },
                { name := "2.jpg".toList, isFile := true }] }

/-- Second chapter folder of the witness: one recognized image. -/
def c7ch2 : ChildEntry :=
  { name := "ch2".toList, isDir := true,
    entries := [{ name := "1.jpg".toList, isFile := true }] }

/-- The witness folder `A/ch1/{1.jpg,2.jpg}`, `A/ch2/{1.jpg}`. -/
def c7folder : FolderData :=
  { name := "A".toList, sidecar := none, children := [c7ch1, c7ch2] }

/-- C7 witness: the theorem at the concrete two-chapter folder. -/
theorem c7_witness :
    (parse_manga_folder (fun s => s) c7folder false).map MangaData.totalPages = some 0
    ∧ (parse_manga_folder (fun s => s) c7folder false).map MangaData.coverUrl
        = some (match chapterImages c7ch1 with
            | [] => []
            | img :: _ => pageUrl (fun s => s) c7folder.name c7ch1.name img)
    ∧ (parse_manga_folder (fun s => s) c7folder true).map MangaData.coverUrl = some []
    ∧ (parse_manga_folder (fun s => s) c7folder true).map MangaData.chapters
        = some (([c7ch1, c7ch2]).map (fun ch =>
            { id := ch.name, title := ch.name,
              pages := (chapterImages ch).map (fun img =>
                { name := img, url := pageUrl (fun s => s) c7folder.name ch.name img }) }))
    ∧ (parse_manga_folder (fun s => s) c7folder true).map MangaData.totalPages
        = some (([c7ch1, c7ch2]).map (fun ch => (chapterImages ch).length)).sum :=
  c7_cover_totalpages (fun s => s) c7folder c7ch1 [c7ch2] (by decide)

/-! ### C1 — cache invalidation after mutations -/

theorem update_metadata_clears {d : Rec} {st : SrvState} {r : Rec} {st' : SrvState}
    (h : update_metadata d st = some (r, st')) : st'.cache = cacheClear st.cache := by
  unfold update_metadata at h
  cases hl : lookupA d idKey with
  | none => simp [hl] at h
  | some v =>
    by_cases hv : jTruthy v = true
    · simp only [hl, if_pos hv] at h
      injection h with h2
      rw [Prod.mk.injEq] at h2
      rw [← h2.2]
    · simp [hl, hv] at h

theorem delete_ok_clears {name : Str} {st : SrvState}
    (h : (delete_manga name st).1 = DelResult.ok) :
    ((delete_manga name st).2).cache = cacheClear st.cache := by
  by_cases h1 : hasTraversal name = true
  · simp [delete_manga, h1] at h
  · by_cases h2 : st.fs.any (fun f => f.name == name) = true
    · simp [delete_manga, h1, h2]
    · simp [delete_manga, h1, h2] at h

theorem sync_pos_clears {st : SrvState} (h : 0 < (sync_manga_names st).1) :
    ((sync_manga_names st).2).cache = cacheClear st.cache := by
  by_cases hpos : 0 < (st.fs.foldl syncStep (0, st.meta)).1
  · unfold sync_manga_names
    rw [if_pos hpos]
  · exfalso
    unfold sync_manga_names at h
    rw [if_neg hpos] at h
    exact hpos h

theorem processItem_fetch_clears {oracle : DlOracle} {st : TaskState} {raw : Str}
    (h1 : (pyStrip raw).isEmpty = false) (h2 : isPhotoId (pyStrip raw) = false)
    (h3 : (oracle.fetchMeta (pyStrip raw)).isSome = true) :
    (processItem oracle st raw).cache = cacheClear st.cache := by
  rw [processItem_spec]
  simp [cacheAfterItem, h1, h2, h3]

/-- C1 (amended): after a successful update-metadata request, an
update-metadata-batch request, a successful delete, a name-sync run that
touched at least one folder (`count > 0`), a batch item's successful metadata
fetch, and the completion of a whole download batch, the library cache is left
cleared, so the next listing recomputes from the filesystem.  (A name-sync run
that touches no folder — `count == 0` — performs no mutation and leaves the
cache as it was; see the counterexample.) -/
theorem c1_mutations_clear_cache (quote : Str → Str) :
    (∀ d st r st', update_metadata d st = some (r, st') →
      ∀ now : ℚ, (scan_library quote now st').1 = computeLibrary quote st'.fs st'.meta)
    ∧ (∀ (updates : List Rec) (st : SrvState) (now : ℚ),
        (scan_library quote now (update_metadata_batch updates st).2).1
          = computeLibrary quote ((update_metadata_batch updates st).2).fs
              ((update_metadata_batch updates st).2).meta)
    ∧ (∀ name st, (delete_manga name st).1 = DelResult.ok →
        ∀ now : ℚ, (scan_library quote now (delete_manga name st).2).1
          = computeLibrary quote ((delete_manga name st).2).fs
              ((delete_manga name st).2).meta)
    ∧ (∀ st, 0 < (sync_manga_names st).1 →
        ∀ now : ℚ, (scan_library quote now (sync_manga_names st).2).1
          = computeLibrary quote ((sync_manga_names st).2).fs
              ((sync_manga_names st).2).meta)
    ∧ (∀ oracle st raw, (pyStrip raw).isEmpty = false → isPhotoId (pyStrip raw) = false →
        (oracle.fetchMeta (pyStrip raw)).isSome = true →
        ∀ now : ℚ, cacheGet now (processItem oracle st raw).cache = none)
    ∧ (∀ ids oracle m0 c0 (now : ℚ),
        cacheGet now (run_download_task ids oracle m0 c0).cache = none) := by
  refine ⟨?_, ?_, ?_, ?_, ?_, ?_⟩
  · intro d st r st' h now
    exact scan_library_cleared (by rw [update_metadata_clears h]; rfl) quote now
  · intro updates st now
    exact scan_library_cleared rfl quote now
  · intro name st h now
    exact scan_library_cleared (by rw [delete_ok_clears h]; rfl) quote now
  · intro st h now
    exact scan_library_cleared (by rw [sync_pos_clears h]; rfl) quote now
  · intro oracle st raw h1 h2 h3 now
    rw [processItem_fetch_clears h1 h2 h3]
    exact cacheGet_clear now _
  · intro ids oracle m0 c0 now
    rw [run_download_task_spec]
    exact cacheGet_clear now (ids.foldl (cacheAfterItem oracle) c0)

/-- A state with an empty download root but a fresh, non-empty cache. -/
def c1srv : SrvState :=
  { fs := [], meta := [], cache := { data := [sampleMerged], last_updated := 0 } }

/-- C1 counterexample: a name-sync run over an empty download root completes
with `count = 0` and does NOT clear the cache — the next listing still serves
the cached value `[sampleMerged]` instead of the recomputed library `[]`. -/
theorem c1_counterexample :
    (sync_manga_names c1srv).1 = 0
    ∧ (scan_library (fun s => s) 1 (sync_manga_names c1srv).2).1 = [sampleMerged]
    ∧ computeLibrary (fun s => s) ((sync_manga_names c1srv).2).fs
        ((sync_manga_names c1srv).2).meta = []
    ∧ (scan_library (fun s => s) 1 (sync_manga_names c1srv).2).1
        ≠ computeLibrary (fun s => s) ((sync_manga_names c1srv).2).fs
            ((sync_manga_names c1srv).2).meta := by
  have hsync : sync_manga_names c1srv = (0, c1srv) := by decide
  have harith : (1 : ℚ) - 0 < cache_duration := by norm_num [cache_duration]
  have hget : cacheGet 1 { data := [sampleMerged], last_updated := 0 } = some [sampleMerged] := by
    unfold cacheGet
    rw [if_pos ⟨harith, by simp⟩]
  have hscan : (scan_library (fun s => s) 1 c1srv).1 = [sampleMerged] := by
    unfold scan_library
    rw [show c1srv.cache = { data := [sampleMerged], last_updated := 0 } from rfl, hget]
  refine ⟨by rw [hsync], by rw [hsync]; exact hscan, by rw [hsync]; rfl, ?_⟩
  rw [hsync, hscan]
  decide

/-- The record `/update_metadata` produces for `c5item1` over an empty store. -/
def c1rec : Rec := [("x".toList, JVal.n 1)]

/-- The state after `/update_metadata` with `c5item1` on `emptySrv`. -/
def c1st1 : SrvState :=
  { fs := [], meta := [(JVal.s "a".toList, c1rec)],
    cache := { data := [], last_updated := 0 } }

/-- A task state with a fresh, non-empty cache. -/
def c1task : TaskState :=
  { meta := [], cache := { data := [sampleMerged], last_updated := 0 },
    emitted := [], calls := [], sidecars := [] }

/-- C1 witness: the amended theorem at concrete instances of all six
operations. -/
theorem c1_witness :
    (scan_library (fun s => s) 2 c1st1).1 = computeLibrary (fun s => s) c1st1.fs c1st1.meta
    ∧ (scan_library (fun s => s) 2 (update_metadata_batch [c5item1] emptySrv).2).1
        = computeLibrary (fun s => s) ((update_metadata_batch [c5item1] emptySrv).2).fs
            ((update_metadata_batch [c5item1] emptySrv).2).meta
    ∧ (scan_library (fun s => s) 2 (delete_manga "A".toList c9srv).2).1
        = computeLibrary (fun s => s) ((delete_manga "A".toList c9srv).2).fs
            ((delete_manga "A".toList c9srv).2).meta
    ∧ (scan_library (fun s => s) 2 (sync_manga_names c9srv).2).1
        = computeLibrary (fun s => s) ((sync_manga_names c9srv).2).fs
            ((sync_manga_names c9srv).2).meta
    ∧ cacheGet 1 (processItem c4oracle c1task "2".toList).cache = none
    ∧ cacheGet 1 (run_download_task ["1".toList] c4oracle [] ⟨[], 0⟩).cache = none := by
  have h := c1_mutations_clear_cache (fun s => s)
  exact ⟨h.1 c5item1 emptySrv c1rec c1st1 (by decide) 2,
    h.2.1 [c5item1] emptySrv 2,
    h.2.2.1 "A".toList c9srv (by decide) 2,
    h.2.2.2.1 c9srv (by decide) 2,
    h.2.2.2.2.1 c4oracle c1task "2".toList (by decide) (by decide) (by decide) 1,
    h.2.2.2.2.2 ["1".toList] c4oracle [] ⟨[], 0⟩ 1⟩

/-! ### C9 — delete endpoint -/

/-- C9: names containing path-traversal separators are rejected with the state
untouched; deleting a missing folder is a not-found failure with cache and
metadata untouched; deleting an existing folder removes it from the tree,
clears the cache, and the next listing recomputes. -/
theorem c9_delete (st : SrvState) (name : Str) (quote : Str → Str) :
    (hasTraversal name = true → delete_manga name st = (.invalidName, st))
    ∧ (hasTraversal name = false → st.fs.any (fun f => f.name == name) = false →
        delete_manga name st = (.notFound, st))
    ∧ (hasTraversal name = false → st.fs.any (fun f => f.name == name) = true →
        delete_manga name st =
          (.ok, { st with fs := st.fs.filter (fun f => !(f.name == name)),
                          cache := cacheClear st.cache })
        ∧ ∀ now, (scan_library quote now (delete_manga name st).2).1
            = computeLibrary quote ((delete_manga name st).2).fs
                ((delete_manga name st).2).meta) := by
  refine ⟨?_, ?_, ?_⟩
  · intro h; simp [delete_manga, h]
  · intro h1 h2; simp [delete_manga, h1, h2]
  · intro h1 h2
    have hd : delete_manga name st =
        (.ok, { st with fs := st.fs.filter (fun f => !(f.name == name)),
                        cache := cacheClear st.cache }) := by
      simp [delete_manga, h1, h2]
    refine ⟨hd, fun now => ?_⟩
    rw [hd]
    exact scan_library_cleared rfl quote now

/-- C9 witness: the theorem at the three concrete scenarios (traversal name,
missing name, existing name). -/
theorem c9_witness :
    delete_manga ("../A".toList) c9srv = (.invalidName, c9srv)
    ∧ delete_manga ("B".toList) c9srv = (.notFound, c9srv)
    ∧ delete_manga ("A".toList) c9srv =
        (.ok, { c9srv with fs := c9srv.fs.filter (fun f => !(f.name == "A".toList)),
                           cache := cacheClear c9srv.cache })
    ∧ (scan_library (fun s => s) 1 (delete_manga ("A".toList) c9srv).2).1
        = computeLibrary (fun s => s) ((delete_manga ("A".toList) c9srv).2).fs
            ((delete_manga ("A".toList) c9srv).2).meta :=
  ⟨(c9_delete c9srv ("../A".toList) (fun s => s)).1 (by decide),
   (c9_delete c9srv ("B".toList) (fun s => s)).2.1 (by decide) (by decide),
   ((c9_delete c9srv ("A".toList) (fun s => s)).2.2 (by decide) (by decide)).1,
   ((c9_delete c9srv ("A".toList) (fun s => s)).2.2 (by decide) (by decide)).2 1⟩

end Minecomic
